import Mathlib

/-!
Verification of the KarplusStrongMachine firmware against its specification.

Shallow embedding of the control-to-parameter mapping, trigger/lockout state
machine, polyphonic mixing, Nyquist clamping and soft-saturation code of
`src/KarplusStrongMachine.cpp` (namespace `KS`),
`src/KarplusStrongMachine_DualMode.cpp` (namespace `DM`) and the two firmware
variants concatenated in `src/DigitalKalimba.cpp` (namespaces `DK` for the
first, reverb-equipped variant and `DK2` for the second variant).

C++ `float` arithmetic is idealised as real arithmetic; the sample-indexed
trigger machine is embedded exactly, over `Nat`/`Bool`, so that it can be
evaluated on concrete trigger streams.
-/

/-- DaisySP helper `fclamp(in, mn, mx) = fmin(fmax(in, mn), mx)`. -/
noncomputable def fclamp (x lo hi : ℝ) : ℝ := min (max x lo) hi

/-- Soft limiting applied to every output sample, `tanhf(output * 1.2f) * 0.8f`
(KarplusStrongMachine.cpp line 144, DualMode line 165, DigitalKalimba lines
359 and 849). -/
noncomputable def soft_limit (output : ℝ) : ℝ := Real.tanh (output * 1.2) * 0.8

namespace KS

/-- Line 88: `pitch_freq = 20.0f * powf(40.0f, pot_pitch)`; the adjacent
comment documents the range as "50 Hz to 2000 Hz". -/
noncomputable def pitch_freq (pot_pitch : ℝ) : ℝ := 20 * (40 : ℝ) ^ pot_pitch

/-- Line 92: `lfo_rate = 0.01f * powf(500.0f, pot_lfo_rate)`; the adjacent
comment documents the range as "0.1 Hz to 20 Hz". -/
noncomputable def lfo_rate (pot_lfo_rate : ℝ) : ℝ := 0.01 * (500 : ℝ) ^ pot_lfo_rate

/-- Line 91: `excitation_threshold = 0.2f + (pot_excite * 0.4f)`. -/
def excitation_threshold (pot_excite : ℝ) : ℝ := 0.2 + pot_excite * 0.4

/-- Line 89: `decay_amount = pot_decay` — the value later passed unmodified to
`str.SetDamping` on line 101. -/
def decay_amount (pot_decay : ℝ) : ℝ := pot_decay

/-- Line 96: the argument of `lfo_vibrato.SetFreq`, recomputed every block. -/
noncomputable def lfo_vibrato_freq (pot_lfo_rate : ℝ) : ℝ := lfo_rate pot_lfo_rate

/-- Line 97: the argument of `lfo_tremolo.SetFreq`, `lfo_rate * 0.7f`. -/
noncomputable def lfo_tremolo_freq (pot_lfo_rate : ℝ) : ℝ := lfo_rate pot_lfo_rate * 0.7

/-- Line 98: the argument of `lfo_filter.SetFreq`, `lfo_rate * 0.4f`. -/
noncomputable def lfo_filter_freq (pot_lfo_rate : ℝ) : ℝ := lfo_rate pot_lfo_rate * 0.4

/-- Line 124: `pitch_mod = 1.0f + (vibrato_sig * 0.02f * lfo_depth)`. -/
def pitch_mod (vibrato_sig lfo_depth : ℝ) : ℝ := 1 + vibrato_sig * 0.02 * lfo_depth

/-- Line 125: the argument passed to `str.SetFreq` each sample. -/
noncomputable def str_freq (pot_pitch vibrato_sig lfo_depth : ℝ) : ℝ :=
  pitch_freq pot_pitch * pitch_mod vibrato_sig lfo_depth

/-- Lines 128-129: `bright_mod = fclamp(brightness + filter_sig * 0.3f * lfo_depth,
0.0f, 1.0f)` — the argument passed to `str.SetBrightness`. -/
noncomputable def bright_mod (brightness filter_sig lfo_depth : ℝ) : ℝ :=
  fclamp (brightness + filter_sig * 0.3 * lfo_depth) 0 1

/-- The six block-rate parameters assigned on lines 88-93 from the six control
readings, before the sample loop starts. -/
structure Params where
  pitch_freq : ℝ
  decay_amount : ℝ
  brightness : ℝ
  excitation_threshold : ℝ
  lfo_rate : ℝ
  lfo_depth : ℝ

/-- Lines 80-93: the once-per-block control mapping from the six readings. -/
noncomputable def map_controls (p0 p1 p2 p3 p4 p5 : ℝ) : Params :=
  { pitch_freq := pitch_freq p0
    decay_amount := decay_amount p1
    brightness := p2
    excitation_threshold := excitation_threshold p3
    lfo_rate := lfo_rate p4
    lfo_depth := p5 }

/-- Lines 104-149: the sample loop runs after the mapping on lines 80-93, and
its body neither reads a control channel nor reassigns a mapped parameter; this
trace records, per sample index of a block of `size` samples, the parameter
record visible to that sample. -/
noncomputable def block_param_trace (p0 p1 p2 p3 p4 p5 : ℝ) (size : ℕ) : List Params :=
  (List.range size).map fun _ => map_controls p0 p1 p2 p3 p4 p5

/-- Line 60: `const uint32_t TRIGGER_LOCKOUT = 4800` (100 ms at 48 kHz). -/
def TRIGGER_LOCKOUT : ℕ := 4800

/-- Lines 58-59: the manual-trigger state, `last_trigger = false` and
`trigger_timer = 0` initially. -/
structure TrigState where
  last_trigger : Bool
  trigger_timer : ℕ
deriving DecidableEq

/-- Line 107: `trigger_edge = trigger_active && !last_trigger && (trigger_timer == 0)`. -/
def trigEdge (s : TrigState) (trigger_active : Bool) : Bool :=
  trigger_active && !s.last_trigger && decide (s.trigger_timer = 0)

/-- Lines 111-116: the lockout timer after one sample — armed to
`TRIGGER_LOCKOUT` on an edge, then decremented while positive. -/
def trigTimerNext (s : TrigState) (trigger_active : Bool) : ℕ :=
  let t := if trigEdge s trigger_active then TRIGGER_LOCKOUT else s.trigger_timer
  if t > 0 then t - 1 else t

/-- Lines 106-116: one sample of the trigger state machine; `last_trigger`
is set to the current `trigger_active` (line 108). -/
def trigStep (s : TrigState) (trigger_active : Bool) : TrigState :=
  { last_trigger := trigger_active, trigger_timer := trigTimerNext s trigger_active }

/-- The trigger state before sample `n`, for a stream `input` of per-sample
values of `pot_excite > excitation_threshold` (line 106). -/
def trigState (input : ℕ → Bool) : ℕ → TrigState
  | 0 => ⟨false, 0⟩
  | n + 1 => trigStep (trigState input n) (input n)

/-- Whether `trigger_edge` fires — the string is excited (line 133) — at
sample `n` of the stream `input`. -/
def firedAt (input : ℕ → Bool) (n : ℕ) : Bool :=
  trigEdge (trigState input n) (input n)

/-- A control stream that is above threshold exactly at samples `m` and `n`:
two isolated rising-edge trigger events. -/
def twoEdge (m n : ℕ) : ℕ → Bool := fun k => decide (k = m) || decide (k = n)

end KS

namespace DM

/-- DualMode line 87: `pitch_freq = 50.0f * powf(40.0f, pot_pitch)`. -/
noncomputable def pitch_freq (pot_pitch : ℝ) : ℝ := 50 * (40 : ℝ) ^ pot_pitch

/-- DualMode line 91: `lfo_rate = 0.1f * powf(200.0f, pot_lfo_rate)`. -/
noncomputable def lfo_rate (pot_lfo_rate : ℝ) : ℝ := 0.1 * (200 : ℝ) ^ pot_lfo_rate

/-- DualMode line 90: `excitation_threshold = 0.6f + (pot_excite * 0.4f)`. -/
def excitation_threshold (pot_excite : ℝ) : ℝ := 0.6 + pot_excite * 0.4

/-- DualMode line 95: the argument of `lfo_vibrato.SetFreq`. -/
noncomputable def lfo_vibrato_freq (pot_lfo_rate : ℝ) : ℝ := lfo_rate pot_lfo_rate

/-- DualMode line 96: the argument of `lfo_tremolo.SetFreq`, `lfo_rate * 0.7f`. -/
noncomputable def lfo_tremolo_freq (pot_lfo_rate : ℝ) : ℝ := lfo_rate pot_lfo_rate * 0.7

/-- DualMode line 97: the argument of `lfo_filter.SetFreq`, `lfo_rate * 0.4f`. -/
noncomputable def lfo_filter_freq (pot_lfo_rate : ℝ) : ℝ := lfo_rate pot_lfo_rate * 0.4

/-- DualMode line 120 (manual mode): `trigger_active = pot_excite >
excitation_threshold`, where the threshold was computed on line 90 from the
same `pot_excite` reading. -/
def trigger_active (pot_excite : ℝ) : Prop := pot_excite > excitation_threshold pot_excite

end DM

namespace DK

/-- DigitalKalimba line 60: `const int NUM_STRINGS = 7`. -/
def NUM_STRINGS : ℕ := 7

/-- DigitalKalimba line 240: `pot_reverb_time = fclamp(controls[5].Value(), 0.0f, 1.0f)`. -/
noncomputable def pot_reverb_time (raw : ℝ) : ℝ := fclamp raw 0 1

/-- DigitalKalimba line 246: `reverb_feedback = 0.6f + (pot_reverb_time * 0.399f)`
— the value passed to `reverb.SetFeedback` on line 249. -/
noncomputable def reverb_feedback (raw : ℝ) : ℝ := 0.6 + pot_reverb_time raw * 0.399

/-- DigitalKalimba lines 341-345: the seven string outputs of one sample are
accumulated and scaled by `1.0f / NUM_STRINGS`. -/
noncomputable def mixed_output (string_output : Fin 7 → ℝ) : ℝ :=
  (∑ s, string_output s) * (1 / (NUM_STRINGS : ℝ))

/-- DigitalKalimba line 324: `const float NYQUIST_LIMIT = 24000.0f` (48 kHz / 2). -/
def NYQUIST_LIMIT : ℝ := 24000

/-- DigitalKalimba lines 323-328: `final_freq = base_freq * octave_ratio *
pitch_mod`, clamped to `NYQUIST_LIMIT` before `strings[s].SetFreq`. -/
noncomputable def final_freq (base_freq oct_factor pitch_mod : ℝ) : ℝ :=
  if base_freq * oct_factor * pitch_mod > NYQUIST_LIMIT then NYQUIST_LIMIT
  else base_freq * oct_factor * pitch_mod

end DK

namespace DK2

/-- DigitalKalimba second variant, lines 830-834: the seven string outputs are
accumulated and scaled by the constant `0.35f`. -/
noncomputable def mixed_output (string_output : Fin 7 → ℝ) : ℝ :=
  (∑ s, string_output s) * 0.35

end DK2

lemma fclamp_mem (x lo hi : ℝ) (h : lo ≤ hi) :
    lo ≤ fclamp x lo hi ∧ fclamp x lo hi ≤ hi :=
  ⟨le_min (le_max_right x lo) h, min_le_right _ _⟩

lemma tanh_eq_one_sub_of_exp (x : ℝ) :
    Real.tanh x = 1 - 2 / (Real.exp (2 * x) + 1) := by
  have ha : 0 < Real.exp x := Real.exp_pos x
  have h2 : Real.exp (2 * x) = Real.exp x * Real.exp x := by
    rw [two_mul, Real.exp_add]
  rw [Real.tanh_eq_sinh_div_cosh, Real.sinh_eq, Real.cosh_eq, Real.exp_neg, h2]
  have hb : (0 : ℝ) < Real.exp x + (Real.exp x)⁻¹ := by positivity
  have hc : (0 : ℝ) < Real.exp x * Real.exp x + 1 := by positivity
  field_simp
  ring

lemma abs_tanh_lt_one (x : ℝ) : |Real.tanh x| < 1 := by
  rw [tanh_eq_one_sub_of_exp, abs_lt]
  have he : 0 < Real.exp (2 * x) := Real.exp_pos _
  have h1 : 0 < 2 / (Real.exp (2 * x) + 1) := by positivity
  have h2 : 2 / (Real.exp (2 * x) + 1) < 2 := by
    rw [div_lt_iff₀ (by positivity)]
    nlinarith
  constructor <;> linarith

lemma tanh_strictMono : StrictMono Real.tanh := by
  intro a b hab
  rw [tanh_eq_one_sub_of_exp, tanh_eq_one_sub_of_exp]
  have h : Real.exp (2 * a) < Real.exp (2 * b) := Real.exp_lt_exp.2 (by linarith)
  have ha : (0 : ℝ) < Real.exp (2 * a) + 1 := by positivity
  have hd : 2 / (Real.exp (2 * b) + 1) < 2 / (Real.exp (2 * a) + 1) :=
    div_lt_div_of_pos_left (by norm_num) ha (by linarith)
  linarith

/-- C3: for every reading of the reverb-time control channel — clamped to
`[0,1]` on line 240 before the mapping on line 246 — the feedback coefficient
passed to `reverb.SetFeedback` lies in `[0.6, 0.999]`, hence strictly below
`1.0`, whatever raw value the channel delivers. -/
theorem reverb_feedback_in_safe_range (raw : ℝ) :
    0.6 ≤ DK.reverb_feedback raw ∧ DK.reverb_feedback raw ≤ 0.999 ∧
      DK.reverb_feedback raw < 1 := by
  obtain ⟨h0, h1⟩ := fclamp_mem raw 0 1 zero_le_one
  unfold DK.reverb_feedback DK.pot_reverb_time
  refine ⟨by linarith, by linarith, by linarith⟩

/-- C7: after every control-block update, the tremolo LFO is set to 0.7 times
and the filter-sweep LFO to 0.4 times the primary (vibrato) LFO rate, in both
the single-mode firmware (lines 96-98) and the dual-mode firmware (lines
95-97). -/
theorem lfo_rates_fixed_multiples (pot_lfo_rate : ℝ) :
    KS.lfo_tremolo_freq pot_lfo_rate = 0.7 * KS.lfo_vibrato_freq pot_lfo_rate ∧
    KS.lfo_filter_freq pot_lfo_rate = 0.4 * KS.lfo_vibrato_freq pot_lfo_rate ∧
    DM.lfo_tremolo_freq pot_lfo_rate = 0.7 * DM.lfo_vibrato_freq pot_lfo_rate ∧
    DM.lfo_filter_freq pot_lfo_rate = 0.4 * DM.lfo_vibrato_freq pot_lfo_rate := by
  refine ⟨?_, ?_, ?_, ?_⟩ <;>
    simp [KS.lfo_tremolo_freq, KS.lfo_filter_freq, KS.lfo_vibrato_freq,
      DM.lfo_tremolo_freq, DM.lfo_filter_freq, DM.lfo_vibrato_freq, mul_comm]

/-- C10: in the dual-mode firmware's manual mode the trigger compares
`pot_excite` with a threshold of `0.6 + 0.4 * pot_excite` computed from the
same reading, a condition no in-range reading in `[0,1]` can satisfy — so a
manual-mode trigger never fires. -/
theorem manual_mode_trigger_unsatisfiable (pot_excite : ℝ)
    (h0 : 0 ≤ pot_excite) (h1 : pot_excite ≤ 1) :
    ¬ DM.trigger_active pot_excite := by
  unfold DM.trigger_active DM.excitation_threshold
  push_neg
  linarith

/-- Witness for C10 at the edge reading `pot_excite = 1`: even a fully turned
excitation pot does not satisfy the dual-mode manual trigger condition. -/
theorem manual_mode_trigger_unsatisfiable_witness :
    ¬ DM.trigger_active 1 :=
  manual_mode_trigger_unsatisfiable 1 zero_le_one le_rfl

/-- C9: the final soft-saturation stage `tanh(1.2 * x) * 0.8` is a strictly
monotonic (hence bounded monotonic) function and every sample it writes to the
output has magnitude at most 0.8, strictly less than 1.0 — the output can
never hard-clip. -/
theorem soft_limit_bounded_monotonic :
    StrictMono soft_limit ∧
    ∀ output : ℝ, |soft_limit output| ≤ 0.8 ∧ |soft_limit output| < 1 := by
  constructor
  · intro a b hab
    unfold soft_limit
    have h : Real.tanh (a * 1.2) < Real.tanh (b * 1.2) :=
      tanh_strictMono (by linarith)
    linarith
  · intro output
    have h := abs_tanh_lt_one (output * 1.2)
    have habs : |soft_limit output| = |Real.tanh (output * 1.2)| * 0.8 := by
      unfold soft_limit
      rw [abs_mul]
      norm_num
    constructor <;> rw [habs] <;> nlinarith [abs_nonneg (Real.tanh (output * 1.2))]

/-- Counterexample to C5: in `KarplusStrongMachine.cpp` the decay reading is
passed to `str.SetDamping` unmodified (lines 89 and 101), so the out-of-domain
control reading 1.5 reaches `SetDamping` as 1.5, outside `[0,1]`. -/
theorem set_damping_arg_escapes_range :
    KS.decay_amount 1.5 = 1.5 ∧ ¬ KS.decay_amount 1.5 ≤ 1 := by
  unfold KS.decay_amount
  norm_num

/-- C5 as amended: the brightness argument of `str.SetBrightness` is clamped
to `[0,1]` (lines 128-130) for every control reading and LFO state, while the
damping argument of `str.SetDamping` equals the decay control reading
unclamped, so it lies in `[0,1]` exactly when that reading does. -/
theorem brightness_clamped_damping_passthrough
    (brightness filter_sig lfo_depth pot_decay : ℝ)
    (h0 : 0 ≤ pot_decay) (h1 : pot_decay ≤ 1) :
    (0 ≤ KS.bright_mod brightness filter_sig lfo_depth ∧
      KS.bright_mod brightness filter_sig lfo_depth ≤ 1) ∧
    (0 ≤ KS.decay_amount pot_decay ∧ KS.decay_amount pot_decay ≤ 1) :=
  ⟨fclamp_mem _ 0 1 zero_le_one, h0, h1⟩

/-- Witness for C5 (amended) at brightness reading 0, filter LFO 1, depth 1
and decay reading 1. -/
theorem brightness_clamped_damping_passthrough_witness :
    (0 ≤ KS.bright_mod 0 1 1 ∧ KS.bright_mod 0 1 1 ≤ 1) ∧
    (0 ≤ KS.decay_amount 1 ∧ KS.decay_amount 1 ≤ 1) :=
  brightness_clamped_damping_passthrough 0 1 1 1 zero_le_one le_rfl

/-- C1: the exponential control mappings of `KarplusStrongMachine.cpp`
contradict their documented ranges: the pitch mapping (comment "50 Hz to 2000
Hz") yields 20 Hz at input 0 and 800 Hz at input 1, and the LFO-rate mapping
(comment "0.1 Hz to 20 Hz") yields 0.01 Hz and 5 Hz; the dual-mode firmware's
mappings do hit their endpoints (50 and 2000 Hz, 0.1 and 20 Hz), map input 0.5
into (316.2, 316.3) Hz, and both pitch mappings are strictly increasing. -/
theorem exponential_mapping_range_divergence :
    (KS.pitch_freq 0 = 20 ∧ KS.pitch_freq 1 = 800) ∧
    (KS.lfo_rate 0 = 0.01 ∧ KS.lfo_rate 1 = 5) ∧
    (DM.pitch_freq 0 = 50 ∧ DM.pitch_freq 1 = 2000) ∧
    (DM.lfo_rate 0 = 0.1 ∧ DM.lfo_rate 1 = 20) ∧
    (316.2 < DM.pitch_freq (1 / 2) ∧ DM.pitch_freq (1 / 2) < 316.3) ∧
    StrictMono DM.pitch_freq ∧ StrictMono KS.pitch_freq := by
  have hsqrt : (40 : ℝ) ^ ((1 : ℝ) / 2) = Real.sqrt 40 := (Real.sqrt_eq_rpow 40).symm
  have hlo : (6.324 : ℝ) < Real.sqrt 40 := by
    rw [show (6.324 : ℝ) = √(6.324 ^ 2) from (Real.sqrt_sq (by norm_num)).symm]
    exact Real.sqrt_lt_sqrt (by positivity) (by norm_num)
  have hhi : Real.sqrt 40 < 6.326 := by
    rw [Real.sqrt_lt' (by norm_num)]
    norm_num
  have hmono : ∀ c : ℝ, 0 < c → StrictMono fun v : ℝ => c * (40 : ℝ) ^ v := by
    intro c hc a b hab
    have : (40 : ℝ) ^ a < (40 : ℝ) ^ b :=
      (Real.rpow_lt_rpow_left_iff (by norm_num)).2 hab
    exact mul_lt_mul_of_pos_left this hc
  refine ⟨⟨?_, ?_⟩, ⟨?_, ?_⟩, ⟨?_, ?_⟩, ⟨?_, ?_⟩, ⟨?_, ?_⟩, ?_, ?_⟩
  · simp [KS.pitch_freq, Real.rpow_zero]
  · rw [KS.pitch_freq, Real.rpow_one]; norm_num
  · simp [KS.lfo_rate, Real.rpow_zero]
  · rw [KS.lfo_rate, Real.rpow_one]; norm_num
  · simp [DM.pitch_freq, Real.rpow_zero]
  · rw [DM.pitch_freq, Real.rpow_one]; norm_num
  · simp [DM.lfo_rate, Real.rpow_zero]
  · rw [DM.lfo_rate, Real.rpow_one]; norm_num
  · rw [DM.pitch_freq, hsqrt]; nlinarith
  · rw [DM.pitch_freq, hsqrt]; nlinarith
  · exact hmono 50 (by norm_num)
  · exact hmono 20 (by norm_num)

/-- C6: the frequency handed to a voice's `SetFreq` never exceeds the Nyquist
limit of 24000 Hz: in `DigitalKalimba.cpp` the computed frequency is clamped
(lines 323-328) whatever its value, and in `KarplusStrongMachine.cpp` the
vibrato-modulated pitch (lines 123-125) stays at or below `20 * 40 * 1.02 =
816` Hz for every in-range pitch reading, LFO sample and depth. -/
theorem set_freq_below_nyquist
    (base_freq oct_factor pmod pot_pitch vibrato_sig lfo_depth : ℝ)
    (hp0 : 0 ≤ pot_pitch) (hp1 : pot_pitch ≤ 1) (hv : |vibrato_sig| ≤ 1)
    (hd0 : 0 ≤ lfo_depth) (hd1 : lfo_depth ≤ 1) :
    DK.final_freq base_freq oct_factor pmod ≤ DK.NYQUIST_LIMIT ∧
    KS.str_freq pot_pitch vibrato_sig lfo_depth ≤ DK.NYQUIST_LIMIT := by
  constructor
  · unfold DK.final_freq
    split
    · exact le_rfl
    · exact le_of_not_lt (by assumption)
  · have hq0 : (0 : ℝ) ≤ (40 : ℝ) ^ pot_pitch := Real.rpow_nonneg (by norm_num) _
    have hq1 : (40 : ℝ) ^ pot_pitch ≤ 40 := by
      calc (40 : ℝ) ^ pot_pitch ≤ (40 : ℝ) ^ (1 : ℝ) :=
            Real.rpow_le_rpow_of_exponent_le (by norm_num) hp1
        _ = 40 := Real.rpow_one 40
    obtain ⟨hv1, hv2⟩ := abs_le.mp hv
    have hm1 : KS.pitch_mod vibrato_sig lfo_depth ≤ 1.02 := by
      unfold KS.pitch_mod
      nlinarith
    have hm0 : 0 ≤ KS.pitch_mod vibrato_sig lfo_depth := by
      unfold KS.pitch_mod
      nlinarith
    unfold KS.str_freq KS.pitch_freq DK.NYQUIST_LIMIT
    nlinarith [mul_le_mul hq1 hm1 hm0 (by norm_num : (0 : ℝ) ≤ 40),
      mul_nonneg hq0 hm0]

/-- Witness for C6 at pitch reading 1, vibrato sample 1 and depth 1: both the
clamped DigitalKalimba frequency (at 400 Hz base, factor 4, modulation 1.02)
and the modulated KarplusStrongMachine frequency stay at or below 24000 Hz. -/
theorem set_freq_below_nyquist_witness :
    DK.final_freq 400 4 1.02 ≤ DK.NYQUIST_LIMIT ∧
    KS.str_freq 1 1 1 ≤ DK.NYQUIST_LIMIT :=
  set_freq_below_nyquist 400 4 1.02 1 1 1 zero_le_one le_rfl abs_one.le
    zero_le_one le_rfl

lemma sum_active_indicator (active : Finset (Fin 7)) :
    (∑ s : Fin 7, if s ∈ active then (1 : ℝ) else 0) = active.card := by
  rw [Finset.sum_ite_mem, Finset.univ_inter, Finset.sum_const, nsmul_eq_mul,
    mul_one]

/-- Counterexample to C4: in the second DigitalKalimba variant the post-sum
scaling constant is `0.35f` (line 834), so seven simultaneous unit-amplitude
voices mix to `7 * 0.35 = 2.45`, exceeding unity. -/
theorem kalimba_mix_exceeds_unity :
    1 < DK2.mixed_output fun _ => 1 := by
  unfold DK2.mixed_output
  rw [Finset.sum_const, Finset.card_univ, Fintype.card_fin]
  norm_num

/-- C4 as amended: mixing any set of active unit-amplitude voices (the rest
silent) with the first variant's post-sum constant `1 / NUM_STRINGS = 1/7`
(line 345) never exceeds unit magnitude, for every number of active voices up
to 7; with the second variant's constant `0.35` (line 834) the bound holds
only when at most 2 voices are active. -/
theorem kalimba_mix_bounded (active : Finset (Fin 7)) :
    |DK.mixed_output fun s => if s ∈ active then 1 else 0| ≤ 1 ∧
    (active.card ≤ 2 →
      |DK2.mixed_output fun s => if s ∈ active then 1 else 0| ≤ 1) := by
  have hcard : (active.card : ℝ) ≤ 7 := by
    have h := Finset.card_le_univ active
    rw [Fintype.card_fin] at h
    exact_mod_cast h
  have hcard0 : (0 : ℝ) ≤ (active.card : ℝ) := Nat.cast_nonneg _
  constructor
  · unfold DK.mixed_output DK.NUM_STRINGS
    rw [sum_active_indicator, abs_of_nonneg (by positivity)]
    rw [mul_one_div, div_le_one (by norm_num)]
    exact_mod_cast hcard
  · intro h2
    have h2r : (active.card : ℝ) ≤ 2 := by exact_mod_cast h2
    unfold DK2.mixed_output
    rw [sum_active_indicator, abs_of_nonneg (by positivity)]
    nlinarith

/-- Witness for C4 (amended) with voices 0 and 1 active: both variants' mixed
samples stay within unit magnitude for two active unit voices. -/
theorem kalimba_mix_bounded_witness :
    |DK.mixed_output fun s => if s ∈ ({0, 1} : Finset (Fin 7)) then 1 else 0| ≤ 1 ∧
    |DK2.mixed_output fun s => if s ∈ ({0, 1} : Finset (Fin 7)) then 1 else 0| ≤ 1 :=
  ⟨(kalimba_mix_bounded {0, 1}).1, (kalimba_mix_bounded {0, 1}).2 (by decide)⟩

/-- C8: the six control readings of a block are mapped to parameters before
the sample loop starts (`KarplusStrongMachine.cpp` lines 80-101 precede the
loop of lines 104-149), so every sample of the block sees the same parameter
record — the one produced by the block's control mapping — and parameters
change only at block boundaries. -/
theorem block_parameters_constant (p0 p1 p2 p3 p4 p5 : ℝ) (size i j : ℕ)
    (hi : i < size) (hj : j < size) :
    (KS.block_param_trace p0 p1 p2 p3 p4 p5 size)[i]? =
      some (KS.map_controls p0 p1 p2 p3 p4 p5) ∧
    (KS.block_param_trace p0 p1 p2 p3 p4 p5 size)[i]? =
      (KS.block_param_trace p0 p1 p2 p3 p4 p5 size)[j]? := by
  unfold KS.block_param_trace
  simp [List.getElem?_range, hi, hj]

/-- Witness for C8 on a block of the firmware's configured size 4
(`hw.SetAudioBlockSize(4)`, line 155), comparing samples 0 and 3. -/
theorem block_parameters_constant_witness :
    (KS.block_param_trace 0.5 0.5 0.5 0.5 0.5 0.5 4)[0]? =
      some (KS.map_controls 0.5 0.5 0.5 0.5 0.5 0.5) ∧
    (KS.block_param_trace 0.5 0.5 0.5 0.5 0.5 0.5 4)[0]? =
      (KS.block_param_trace 0.5 0.5 0.5 0.5 0.5 0.5 4)[3]? :=
  block_parameters_constant 0.5 0.5 0.5 0.5 0.5 0.5 4 0 3 (by decide) (by decide)

lemma trigState_succ (input : ℕ → Bool) (n : ℕ) :
    KS.trigState input (n + 1) = KS.trigStep (KS.trigState input n) (input n) :=
  rfl

lemma last_trigger_succ (input : ℕ → Bool) (n : ℕ) :
    (KS.trigState input (n + 1)).last_trigger = input n :=
  rfl

lemma fired_of_input_false {input : ℕ → Bool} {n : ℕ} (h : input n = false) :
    KS.firedAt input n = false := by
  unfold KS.firedAt KS.trigEdge
  rw [h]
  simp

lemma fired_of_timer_ne_zero {input : ℕ → Bool} {n : ℕ}
    (h : (KS.trigState input n).trigger_timer ≠ 0) :
    KS.firedAt input n = false := by
  unfold KS.firedAt KS.trigEdge
  simp [h]

lemma fired_of_clean {input : ℕ → Bool} {n : ℕ} (ha : input n = true)
    (hl : (KS.trigState input n).last_trigger = false)
    (ht : (KS.trigState input n).trigger_timer = 0) :
    KS.firedAt input n = true := by
  unfold KS.firedAt KS.trigEdge
  rw [ha, hl, ht]
  simp

lemma timer_after_fire {input : ℕ → Bool} {n : ℕ}
    (h : KS.firedAt input n = true) :
    (KS.trigState input (n + 1)).trigger_timer = KS.TRIGGER_LOCKOUT - 1 := by
  rw [trigState_succ]
  show KS.trigTimerNext _ _ = _
  unfold KS.firedAt at h
  simp only [KS.trigTimerNext, h]
  rfl

lemma timer_after_no_fire {input : ℕ → Bool} {n : ℕ}
    (h : KS.firedAt input n = false) :
    (KS.trigState input (n + 1)).trigger_timer =
      (KS.trigState input n).trigger_timer - 1 := by
  rw [trigState_succ]
  show KS.trigTimerNext _ _ = _
  unfold KS.firedAt at h
  simp only [KS.trigTimerNext, h, Bool.false_eq_true, if_false]
  split <;> omega

lemma timer_countdown (input : ℕ → Bool) (i : ℕ)
    (h : KS.firedAt input i = true) :
    ∀ d, 1 ≤ d → d ≤ KS.TRIGGER_LOCKOUT →
      (KS.trigState input (i + d)).trigger_timer = KS.TRIGGER_LOCKOUT - d := by
  have hL : KS.TRIGGER_LOCKOUT = 4800 := rfl
  intro d
  induction d with
  | zero => omega
  | succ d ih =>
    intro _ hd
    rcases Nat.eq_zero_or_pos d with hd0 | hd1
    · subst hd0
      exact timer_after_fire h
    · have ht : (KS.trigState input (i + d)).trigger_timer =
          KS.TRIGGER_LOCKOUT - d := ih hd1 (by omega)
      have hnf : KS.firedAt input (i + d) = false :=
        fired_of_timer_ne_zero (by omega)
      have hstep := timer_after_no_fire hnf
      rw [show i + (d + 1) = (i + d) + 1 from rfl, hstep, ht]
      omega

lemma no_refire_within_lockout (input : ℕ → Bool) (i j : ℕ)
    (hf : KS.firedAt input i = true) (hij : i < j)
    (hjl : j < i + KS.TRIGGER_LOCKOUT) :
    KS.firedAt input j = false := by
  have hL : KS.TRIGGER_LOCKOUT = 4800 := rfl
  have ht : (KS.trigState input j).trigger_timer =
      KS.TRIGGER_LOCKOUT - (j - i) := by
    have h := timer_countdown input i hf (j - i) (by omega) (by omega)
    rwa [show i + (j - i) = j from by omega] at h
  exact fired_of_timer_ne_zero (by omega)

lemma trigState_quiet (input : ℕ → Bool) (p : ℕ)
    (hp : (KS.trigState input p).trigger_timer = 0) :
    ∀ d, (∀ k, p ≤ k → k < p + d → input k = false) →
      (KS.trigState input (p + d)).trigger_timer = 0 ∧
      (1 ≤ d → (KS.trigState input (p + d)).last_trigger = false) := by
  intro d
  induction d with
  | zero => exact fun _ => ⟨hp, by omega⟩
  | succ d ih =>
    intro hq
    have ihh := ih fun k hk1 hk2 => hq k hk1 (by omega)
    have hin : input (p + d) = false := hq _ (by omega) (by omega)
    refine ⟨?_, fun _ => ?_⟩
    · rw [show p + (d + 1) = (p + d) + 1 from rfl, trigState_succ]
      show KS.trigTimerNext _ _ = 0
      simp [KS.trigTimerNext, KS.trigEdge, hin, ihh.1]
    · rw [show p + (d + 1) = (p + d) + 1 from rfl, last_trigger_succ, hin]

lemma trigState_clean_of_quiet_prefix (input : ℕ → Bool) (m : ℕ)
    (h : ∀ k, k < m → input k = false) :
    (KS.trigState input m).last_trigger = false ∧
    (KS.trigState input m).trigger_timer = 0 := by
  rcases Nat.eq_zero_or_pos m with rfl | hm
  · exact ⟨rfl, rfl⟩
  · have hq := trigState_quiet input 0 rfl m fun k _ hk => h k (by omega)
    rw [Nat.zero_add] at hq
    exact ⟨hq.2 hm, hq.1⟩

lemma twoEdge_at_first (m n : ℕ) : KS.twoEdge m n m = true := by
  simp [KS.twoEdge]

lemma twoEdge_at_second (m n : ℕ) : KS.twoEdge m n n = true := by
  simp [KS.twoEdge]

lemma twoEdge_elsewhere {m n k : ℕ} (hm : k ≠ m) (hn : k ≠ n) :
    KS.twoEdge m n k = false := by
  simp [KS.twoEdge, hm, hn]

lemma twoEdge_fires_first {m n : ℕ} (hmn : m < n) :
    KS.firedAt (KS.twoEdge m n) m = true := by
  have hclean := trigState_clean_of_quiet_prefix (KS.twoEdge m n) m
    fun k hk => twoEdge_elsewhere (by omega) (by omega)
  exact fired_of_clean (twoEdge_at_first m n) hclean.1 hclean.2

/-- C2: manual/level trigger mode with the 4800-sample lockout (100 ms at 48
kHz): for a control stream whose two rising-edge events fall at samples `m`
and `n`, if the events are fewer than 4800 samples apart only the first
excites the string (exactly one excitation), and if they are more than 4800
samples apart both excite it (exactly two excitations). -/
theorem manual_trigger_lockout (m n : ℕ) (hmn : m < n) :
    (n < m + KS.TRIGGER_LOCKOUT →
      KS.firedAt (KS.twoEdge m n) m = true ∧
      KS.firedAt (KS.twoEdge m n) n = false ∧
      ∀ k, k ≠ m → KS.firedAt (KS.twoEdge m n) k = false) ∧
    (m + KS.TRIGGER_LOCKOUT < n →
      KS.firedAt (KS.twoEdge m n) m = true ∧
      KS.firedAt (KS.twoEdge m n) n = true ∧
      ∀ k, k ≠ m → k ≠ n → KS.firedAt (KS.twoEdge m n) k = false) := by
  have hL : KS.TRIGGER_LOCKOUT = 4800 := rfl
  have hfirst := twoEdge_fires_first hmn
  constructor
  · intro hnear
    refine ⟨hfirst, no_refire_within_lockout _ m n hfirst hmn hnear, ?_⟩
    intro k hk
    rcases eq_or_ne k n with rfl | hkn
    · exact no_refire_within_lockout _ m k hfirst hmn hnear
    · exact fired_of_input_false (twoEdge_elsewhere hk hkn)
  · intro hfar
    have hzero : (KS.trigState (KS.twoEdge m n) (m + KS.TRIGGER_LOCKOUT)).trigger_timer = 0 := by
      have h := timer_countdown (KS.twoEdge m n) m hfirst KS.TRIGGER_LOCKOUT
        (by omega) le_rfl
      omega
    have hquiet := trigState_quiet (KS.twoEdge m n) (m + KS.TRIGGER_LOCKOUT) hzero
      (n - (m + KS.TRIGGER_LOCKOUT))
      (fun k hk1 hk2 => twoEdge_elsewhere (by omega) (by omega))
    rw [show m + KS.TRIGGER_LOCKOUT + (n - (m + KS.TRIGGER_LOCKOUT)) = n from by omega]
      at hquiet
    have hfired_n : KS.firedAt (KS.twoEdge m n) n = true :=
      fired_of_clean (twoEdge_at_second m n) (hquiet.2 (by omega)) hquiet.1
    refine ⟨hfirst, hfired_n, ?_⟩
    intro k hkm hkn
    exact fired_of_input_false (twoEdge_elsewhere hkm hkn)

/-- Witness for C2 at the spec's examples: edges at samples 0 and 3000 yield
an excitation only at 0, edges at samples 0 and 5000 yield excitations at
both. -/
theorem manual_trigger_lockout_witness :
    KS.firedAt (KS.twoEdge 0 3000) 0 = true ∧
    KS.firedAt (KS.twoEdge 0 3000) 3000 = false ∧
    KS.firedAt (KS.twoEdge 0 5000) 0 = true ∧
    KS.firedAt (KS.twoEdge 0 5000) 5000 = true :=
  ⟨((manual_trigger_lockout 0 3000 (by decide)).1 (by decide)).1,
   ((manual_trigger_lockout 0 3000 (by decide)).1 (by decide)).2.1,
   ((manual_trigger_lockout 0 5000 (by decide)).2 (by decide)).1,
   ((manual_trigger_lockout 0 5000 (by decide)).2 (by decide)).2.1⟩
